import Mathlib

/-!
Shallow embedding of the deep-research client scripts
(`deep-research-sync.py` and `deep-research-async.py`).

The observable behaviour of the scripts (console output, remote
collaborator calls, the file write) is modelled as a list of events of
type `Ev`.  Pure computations (string joining, stripping, citation
deduplication) are modelled as Lean functions on `String` and `List`.
The remote service is modelled as data supplied to the functions: the
initial run status, a script of per-tick `(run status, fetched agent
message)` pairs, and the final fetched message.
-/

namespace DeepResearch

/-- Python f-string interpolation of an optional string: Python renders
`None` as the text "None"; a present string is rendered as itself. -/
def pyShowOpt : Option String → String
  | none => "None"
  | some s => s

/-- Python `x or y` on an optional string `x`: the fallback `y` is taken
when `x` is absent or empty (both are falsy in Python). -/
def orElseStr (t : Option String) (u : String) : String :=
  match t with
  | none => u
  | some s => if s = "" then u else s

/-- Model of Python `str.strip()` on the character list of a string:
drop leading and trailing whitespace characters.  The whitespace set is
`Char.isWhitespace` (space, tab, carriage return, newline). -/
def stripChars (l : List Char) : List Char :=
  ((l.dropWhile Char.isWhitespace).reverse.dropWhile Char.isWhitespace).reverse

/-- Model of Python `str.strip()` on strings. -/
def pyStrip (s : String) : String :=
  String.mk (stripChars s.data)

/-- A url citation carried by a message annotation: in the source these
are the `ann.url_citation.title` (optional in the service model) and
`ann.url_citation.url` fields. -/
structure UrlCitation where
  title : Option String
  url : String
deriving DecidableEq, Repr

/-- A thread message as consumed by the scripts: its identifier, the
text segment values (each element models `t.text.value` for
`t` in `message.text_messages`), and its url citation annotations. -/
structure ThreadMessage where
  id : String
  text_messages : List String
  url_citation_annotations : List UrlCitation
deriving DecidableEq, Repr

/-- Observable events of one invocation: remote collaborator calls,
console output statements, and the summary file write.  Each console
constructor corresponds to one `print` / `log_with_timestamp` call site
in the source; the dynamic data of the corresponding f-string is the
constructor payload. -/
inductive Ev where
  | sleep1
  | getRun
  | getLastAgentMessage
  | listConnections
  | createAgent
  | createThread
  | createMessage
  | createRun
  | deleteAgentCall (agentId : String)
  | logLine (msg : String)
  | logHeartbeat (status : String) (count : Nat)
  | printRunStatus (status : String)
  | logNewResponse
  | printAgentHeader
  | printAgentText (s : String)
  | printCitation (line : String)
  | writeFile (path : String) (content : String)
  | printNoMessage
  | printSummaryWritten (path : String)
deriving DecidableEq, Repr

/-- Console text produced by an event (empty for non-console events).
Timestamps prepended by `log_with_timestamp` are elided: a timestamped
line `[ts] msg` is rendered as its message part `msg`. -/
def consoleText : Ev → List String
  | .sleep1 => []
  | .getRun => []
  | .getLastAgentMessage => []
  | .listConnections => []
  | .createAgent => []
  | .createThread => []
  | .createMessage => []
  | .createRun => []
  | .deleteAgentCall _ => []
  | .logLine m => [m]
  | .logHeartbeat s n => ["実行中... ステータス: " ++ s ++ " (" ++ toString n ++ "秒経過)"]
  | .printRunStatus s => ["Run status: " ++ s]
  | .logNewResponse => ["新しいエージェント応答を受信"]
  | .printAgentHeader => ["\nAgent response:"]
  | .printAgentText s => [s]
  | .printCitation line => [line]
  | .writeFile _ _ => []
  | .printNoMessage => ["No message content provided, cannot create research summary."]
  | .printSummaryWritten p => ["Research summary written to \x27" ++ p ++ "\x27."]

/-- Rendered line of the streaming citation print:
`print(f"URL Citation: [{ann.url_citation.title}]({ann.url_citation.url})")`.
Note the title is interpolated directly (no fallback here). -/
def citationLine (ann : UrlCitation) : String :=
  "URL Citation: [" ++ pyShowOpt ann.title ++ "](" ++ ann.url ++ ")"

/-- Loop-guard of the poller: `run.status in ("queued", "in_progress")`. -/
def nonTerminal (s : String) : Bool :=
  s == "queued" || s == "in_progress"

namespace Sync

/-- Embedding of `fetch_and_print_new_agent_response` from
`deep-research-sync.py` (lines 17-36).  The fetched most-recent agent
message is passed in as `response`; the returned pair is the event
trace of the call and its return value. -/
def fetch_and_print_new_agent_response
    (response : Option ThreadMessage) (last_message_id : Option String) :
    List Ev × Option String :=
  match response with
  | none => ([Ev.getLastAgentMessage], last_message_id)
  | some r =>
    if some r.id = last_message_id then
      ([Ev.getLastAgentMessage], last_message_id)
    else
      ([Ev.getLastAgentMessage, Ev.logNewResponse, Ev.printAgentHeader,
        Ev.printAgentText (String.intercalate "\n" r.text_messages)]
        ++ r.url_citation_annotations.map (fun ann => Ev.printCitation (citationLine ann)),
       some r.id)

/-- Citation deduplication loop of `create_research_summary`
(lines 55-61): walk the annotations keeping the first occurrence of
each url; `seen` models the Python `seen_urls` set (membership only).
Each kept entry is the `(title, url)` pair that is written, with the
Python `or` fallback applied to the title. -/
def dedupCitations (seen : List String) : List UrlCitation → List (String × String)
  | [] => []
  | ann :: rest =>
    if ann.url ∈ seen then dedupCitations seen rest
    else (orElseStr ann.title ann.url, ann.url) :: dedupCitations (ann.url :: seen) rest

/-- Body text written by `create_research_summary` (line 49):
`"\n\n".join([t.text.value.strip() for t in message.text_messages])`. -/
def summaryBody (m : ThreadMessage) : String :=
  String.intercalate "\n\n" (m.text_messages.map pyStrip)

/-- The reference section appended by `create_research_summary`
(lines 53-61): empty when the annotation list is empty, otherwise the
heading followed by one markdown item per deduplicated entry. -/
def referencesSection (m : ThreadMessage) : String :=
  if m.url_citation_annotations.isEmpty then ""
  else
    "\n\n## References\n" ++
      String.join ((dedupCitations [] m.url_citation_annotations).map
        (fun p => "- [" ++ p.1 ++ "](" ++ p.2 ++ ")\n"))

/-- Full content of the summary file written by
`create_research_summary`: the sequential `fp.write` calls concatenate
to this string. -/
def summaryContent (m : ThreadMessage) : String :=
  summaryBody m ++ referencesSection m

/-- Embedding of `create_research_summary` from `deep-research-sync.py`
(lines 39-63).  Returns the event trace: either the no-message print,
or the file write followed by the completion print. -/
def create_research_summary (message : Option ThreadMessage) (filepath : String) : List Ev :=
  match message with
  | none => [Ev.printNoMessage]
  | some m => [Ev.writeFile filepath (summaryContent m), Ev.printSummaryWritten filepath]

/-- Embedding of the polling loop (lines 158-173).  `status` is the
current `run.status`; `script` supplies, for each future tick, the run
status returned by `runs.get` and the agent message fetched by the
detector on that tick.  Returns the event trace, the final status, the
final `last_message_id` and the final `status_count`.  An exhausted
script with a still non-terminal status stops with no further events
(the claims only quantify over scripts long enough to reach a terminal
status). -/
def pollLoop (status : String) (script : List (String × Option ThreadMessage))
    (last_message_id : Option String) (status_count : Nat) :
    List Ev × String × Option String × Nat :=
  if nonTerminal status then
    match script with
    | [] => ([], status, last_message_id, status_count)
    | (s, m) :: rest =>
      let det := fetch_and_print_new_agent_response m last_message_id
      let line := if (status_count + 1) % 10 == 0
        then Ev.logHeartbeat s (status_count + 1)
        else Ev.printRunStatus s
      let next := pollLoop s rest det.2 (status_count + 1)
      (Ev.sleep1 :: Ev.getRun :: det.1 ++ [line] ++ next.1, next.2)
  else
    ([], status, last_message_id, status_count)

/-- Embedding of the terminal handling after the poll loop
(lines 175-192): completion log, failure log when the final status is
"failed", final-message fetch, conditional summary creation, and agent
deletion. -/
def afterLoopEvents (final_status : String) (last_error : Option String)
    (run_id : String) (final_message : Option ThreadMessage) (agent_id : String) :
    List Ev :=
  [Ev.logLine ("実行完了 - ステータス: " ++ final_status ++ ", ID: " ++ run_id)]
  ++ (if final_status == "failed" then [Ev.logLine ("実行失敗: " ++ pyShowOpt last_error)] else [])
  ++ [Ev.logLine "最終メッセージを取得中...", Ev.getLastAgentMessage]
  ++ (match final_message with
      | some m => Ev.logLine "研究サマリーを作成中..." :: create_research_summary (some m) "research_summary.md"
      | none => [])
  ++ [Ev.deleteAgentCall agent_id, Ev.logLine "エージェントを削除しました"]

/-- The poll-and-summarize sequence (lines 154-192): run creation, the
polling loop starting from the created run's status with
`last_message_id = None` and `status_count = 0`, then the terminal
handling. -/
def pollAndSummarize (run_id : String) (s0 : String)
    (script : List (String × Option ThreadMessage)) (last_error : Option String)
    (final_message : Option ThreadMessage) (agent_id : String) : List Ev :=
  Ev.createRun ::
    (pollLoop s0 script none 0).1
    ++ afterLoopEvents (pollLoop s0 script none 0).2.1 last_error run_id final_message agent_id

/-- Connection record returned by `project_client.connections.list()`:
only the `name` and `id` fields are consumed by the source. -/
structure Connection where
  name : String
  id : String
deriving DecidableEq, Repr

/-- Fallback branch of the Bing connection resolution
(`deep-research-sync.py` lines 76-104, non-exception path): list the
connections, search by resource name with the `for`/`break` loop (the
first match wins), and either log the resolved id or log the
not-found message and exit. -/
def resolveConnFallback (bing_resource_name : String) (connections : List Connection) :
    List Ev × Option String :=
  let head := [Ev.logLine "BING_CONNECTION_IDが設定されていません。接続IDの自動構築を試行します...",
    Ev.listConnections]
  match connections.find? (fun conn => conn.name == bing_resource_name) with
  | some conn => (head ++ [Ev.logLine ("Bing接続を自動取得: " ++ conn.id)], some conn.id)
  | none =>
    (head ++ [Ev.logLine ("Bing接続 \x27" ++ bing_resource_name ++ "\x27 が見つかりません")], none)

/-- Embedding of the Bing connection resolution of
`deep-research-sync.py` (lines 72-104): either the environment variable
is present with a non-empty stripped value and is used directly, or the
connection list is fetched and searched by resource name.  The result
is the event trace paired with the connection id, `none` standing for
`exit(1)`.  The `except` branch of the `try` (a failure of the remote
listing call itself) is not modelled: remote-call failures abort the
invocation and are outside the event model. -/
def resolveConn (bing_connection_id : Option String) (bing_resource_name : String)
    (connections : List Connection) : List Ev × Option String :=
  match bing_connection_id with
  | some c =>
    if pyStrip c ≠ "" then
      ([Ev.logLine ("環境変数から接続IDを取得: " ++ c)], some c)
    else
      resolveConnFallback bing_resource_name connections
  | none => resolveConnFallback bing_resource_name connections

/-- Resource-creation events of the sync script (lines 121-152): agent,
thread and user-message creation with their milestone logs. -/
def setupEvents (agent_id thread_id message_id : String) : List Ev :=
  [Ev.createAgent, Ev.logLine ("エージェントを作成しました - ID: " ++ agent_id),
   Ev.createThread, Ev.logLine ("スレッドを作成しました - ID: " ++ thread_id),
   Ev.createMessage, Ev.logLine ("メッセージを作成しました - ID: " ++ message_id),
   Ev.logLine "処理を開始します（数分かかる場合があります）..."]

/-- Full event trace of the synchronous script from the connection
resolution onward (the module top level of `deep-research-sync.py`).
When the connection resolution exits, the trace ends there. -/
def mainEvents (bing_connection_id : Option String) (bing_resource_name : String)
    (connections : List Connection) (agent_id thread_id message_id run_id : String)
    (s0 : String) (script : List (String × Option ThreadMessage))
    (last_error : Option String) (final_message : Option ThreadMessage) : List Ev :=
  let res := resolveConn bing_connection_id bing_resource_name connections
  match res.2 with
  | none => res.1
  | some _ =>
    res.1 ++ setupEvents agent_id thread_id message_id
      ++ pollAndSummarize run_id s0 script last_error final_message agent_id

end Sync

namespace Async

/-- Embedding of `fetch_and_print_new_agent_response` from
`deep-research-async.py` (lines 54-75); the `await` points suspend but
do not change the sequential order of effects, so the embedding is the
same shape as the synchronous one. -/
def fetch_and_print_new_agent_response
    (response : Option ThreadMessage) (last_message_id : Option String) :
    List Ev × Option String :=
  match response with
  | none => ([Ev.getLastAgentMessage], last_message_id)
  | some r =>
    if some r.id = last_message_id then
      ([Ev.getLastAgentMessage], last_message_id)
    else
      ([Ev.getLastAgentMessage, Ev.logNewResponse, Ev.printAgentHeader,
        Ev.printAgentText (String.intercalate "\n" r.text_messages)]
        ++ r.url_citation_annotations.map (fun ann => Ev.printCitation (citationLine ann)),
       some r.id)

/-- Citation deduplication loop of the async `create_research_summary`
(lines 94-100). -/
def dedupCitations (seen : List String) : List UrlCitation → List (String × String)
  | [] => []
  | ann :: rest =>
    if ann.url ∈ seen then dedupCitations seen rest
    else (orElseStr ann.title ann.url, ann.url) :: dedupCitations (ann.url :: seen) rest

/-- Body text written by the async `create_research_summary` (line 88). -/
def summaryBody (m : ThreadMessage) : String :=
  String.intercalate "\n\n" (m.text_messages.map pyStrip)

/-- Reference section appended by the async `create_research_summary`
(lines 92-100). -/
def referencesSection (m : ThreadMessage) : String :=
  if m.url_citation_annotations.isEmpty then ""
  else
    "\n\n## References\n" ++
      String.join ((dedupCitations [] m.url_citation_annotations).map
        (fun p => "- [" ++ p.1 ++ "](" ++ p.2 ++ ")\n"))

/-- Full content of the file written by the async
`create_research_summary`. -/
def summaryContent (m : ThreadMessage) : String :=
  summaryBody m ++ referencesSection m

/-- Embedding of `create_research_summary` from `deep-research-async.py`
(lines 78-102): this helper is itself synchronous in the async script. -/
def create_research_summary (message : Option ThreadMessage) (filepath : String) : List Ev :=
  match message with
  | none => [Ev.printNoMessage]
  | some m => [Ev.writeFile filepath (summaryContent m), Ev.printSummaryWritten filepath]

/-- Embedding of the async polling loop (lines 164-179):
`await asyncio.sleep(1)` and the awaited remote calls occur in the same
order as the blocking calls of the sync script. -/
def pollLoop (status : String) (script : List (String × Option ThreadMessage))
    (last_message_id : Option String) (status_count : Nat) :
    List Ev × String × Option String × Nat :=
  if nonTerminal status then
    match script with
    | [] => ([], status, last_message_id, status_count)
    | (s, m) :: rest =>
      let det := fetch_and_print_new_agent_response m last_message_id
      let line := if (status_count + 1) % 10 == 0
        then Ev.logHeartbeat s (status_count + 1)
        else Ev.printRunStatus s
      let next := pollLoop s rest det.2 (status_count + 1)
      (Ev.sleep1 :: Ev.getRun :: det.1 ++ [line] ++ next.1, next.2)
  else
    ([], status, last_message_id, status_count)

/-- Embedding of the terminal handling after the async poll loop
(lines 181-198). -/
def afterLoopEvents (final_status : String) (last_error : Option String)
    (run_id : String) (final_message : Option ThreadMessage) (agent_id : String) :
    List Ev :=
  [Ev.logLine ("実行完了 - ステータス: " ++ final_status ++ ", ID: " ++ run_id)]
  ++ (if final_status == "failed" then [Ev.logLine ("実行失敗: " ++ pyShowOpt last_error)] else [])
  ++ [Ev.logLine "最終メッセージを取得中...", Ev.getLastAgentMessage]
  ++ (match final_message with
      | some m => Ev.logLine "研究サマリーを作成中..." :: create_research_summary (some m) "research_summary.md"
      | none => [])
  ++ [Ev.deleteAgentCall agent_id, Ev.logLine "エージェントを削除しました"]

/-- The async poll-and-summarize sequence (lines 160-198). -/
def pollAndSummarize (run_id : String) (s0 : String)
    (script : List (String × Option ThreadMessage)) (last_error : Option String)
    (final_message : Option ThreadMessage) (agent_id : String) : List Ev :=
  Ev.createRun ::
    (pollLoop s0 script none 0).1
    ++ afterLoopEvents (pollLoop s0 script none 0).2.1 last_error run_id final_message agent_id

/-- Startup logs of the async `main` (lines 106-120): the async script
logs its start, client initialization and tool initialization before
creating any resources; the sync script has no counterpart for these
lines. -/
def startupEvents (deep_research_model : String) : List Ev :=
  [Ev.logLine "Deep Research (非同期版) を開始します",
   Ev.logLine "Azure AI Project Clientを初期化しました",
   Ev.logLine "Deep Research Toolを初期化中...",
   Ev.logLine ("Deep Research Tool初期化完了 - モデル: " ++ deep_research_model)]

/-- Resource-creation events of the async `main` (lines 129-158):
agent, thread and user-message creation with their milestone logs. -/
def setupEvents (agent_id thread_id message_id : String) : List Ev :=
  [Ev.createAgent, Ev.logLine ("エージェントを作成しました - ID: " ++ agent_id),
   Ev.createThread, Ev.logLine ("スレッドを作成しました - ID: " ++ thread_id),
   Ev.createMessage, Ev.logLine ("メッセージを作成しました - ID: " ++ message_id),
   Ev.logLine "処理を開始します（数分かかる場合があります）..."]

/-- Full event trace of the async `main` (lines 105-198). -/
def mainEvents (deep_research_model : String)
    (agent_id thread_id message_id run_id : String)
    (s0 : String) (script : List (String × Option ThreadMessage))
    (last_error : Option String) (final_message : Option ThreadMessage) : List Ev :=
  startupEvents deep_research_model
    ++ setupEvents agent_id thread_id message_id
    ++ pollAndSummarize run_id s0 script last_error final_message agent_id

end Async

/-- Event predicate: the tick heartbeat log line. -/
def isHeartbeat : Ev → Bool
  | .logHeartbeat _ _ => true
  | _ => false

/-- Event predicate: the plain per-tick `Run status:` line. -/
def isPlainStatus : Ev → Bool
  | .printRunStatus _ => true
  | _ => false

/-- Event predicate: a streamed citation line. -/
def isCitationEv : Ev → Bool
  | .printCitation _ => true
  | _ => false

/-- Event predicate: a per-tick progress line of either kind (heartbeat
or plain status). -/
def isTickLine : Ev → Bool
  | .logHeartbeat _ _ => true
  | .printRunStatus _ => true
  | _ => false

/-- The sequence of per-tick progress lines the loop emits along a
script, starting after `c` earlier ticks: each tick prints the
heartbeat when its tick number is a multiple of 10 and the plain status
line otherwise (mirrors the branch at the end of the loop body). -/
def tickLines (c : Nat) : List (String × Option ThreadMessage) → List Ev
  | [] => []
  | (s, _) :: rest =>
    (if (c + 1) % 10 == 0 then Ev.logHeartbeat s (c + 1) else Ev.printRunStatus s)
      :: tickLines (c + 1) rest

/-- Scanner for three consecutive newline characters (two consecutive
blank-line boundaries) in a character list. -/
def hasTriple : List Char → Bool
  | a :: b :: c :: rest =>
    (a == '\n' && b == '\n' && c == '\n') || hasTriple (b :: c :: rest)
  | _ => false

/-- Unfolding of the poll loop on an exhausted script. -/
theorem pollLoop_nil (s : String) (lid : Option String) (c : Nat) :
    Sync.pollLoop s [] lid c = ([], s, lid, c) := by
  rw [Sync.pollLoop.eq_def]
  cases h : nonTerminal s <;> simp

/-- Unfolding of the poll loop at a terminal current status. -/
theorem pollLoop_terminal (s : String) (script : List (String × Option ThreadMessage))
    (lid : Option String) (c : Nat) (h : nonTerminal s = false) :
    Sync.pollLoop s script lid c = ([], s, lid, c) := by
  rw [Sync.pollLoop.eq_def, h]
  rfl

/-- Unfolding of the poll loop for one tick at a non-terminal status. -/
theorem pollLoop_cons (s0 s : String) (m : Option ThreadMessage)
    (rest : List (String × Option ThreadMessage)) (lid : Option String) (c : Nat)
    (h0 : nonTerminal s0 = true) :
    Sync.pollLoop s0 ((s, m) :: rest) lid c =
      (Ev.sleep1 :: Ev.getRun :: (Sync.fetch_and_print_new_agent_response m lid).1
        ++ [if (c + 1) % 10 == 0 then Ev.logHeartbeat s (c + 1) else Ev.printRunStatus s]
        ++ (Sync.pollLoop s rest (Sync.fetch_and_print_new_agent_response m lid).2 (c + 1)).1,
       (Sync.pollLoop s rest (Sync.fetch_and_print_new_agent_response m lid).2 (c + 1)).2) := by
  rw [Sync.pollLoop.eq_def, h0]
  rfl

/-- C1: for every thread state, if the fetched most-recent agent message
is absent or carries the last-seen identifier, the detector returns the
last-seen identifier with no console output; otherwise it logs the
receipt, prints the header, prints the newline-joined text segments,
prints one citation line per annotation in order, and returns the new
identifier. -/
theorem C1_detector_delta (response : Option ThreadMessage) (last : Option String) :
    ((response = none ∨ ∃ m, response = some m ∧ some m.id = last) →
      Sync.fetch_and_print_new_agent_response response last = ([Ev.getLastAgentMessage], last)
      ∧ ((Sync.fetch_and_print_new_agent_response response last).1.flatMap consoleText) = [])
    ∧ (∀ m, response = some m → some m.id ≠ last →
      Sync.fetch_and_print_new_agent_response response last =
        ([Ev.getLastAgentMessage, Ev.logNewResponse, Ev.printAgentHeader,
          Ev.printAgentText (String.intercalate "\n" m.text_messages)]
          ++ m.url_citation_annotations.map (fun ann => Ev.printCitation (citationLine ann)),
         some m.id)) := by
  constructor
  · rintro (rfl | ⟨m, rfl, hm⟩)
    · exact ⟨rfl, rfl⟩
    · rw [Sync.fetch_and_print_new_agent_response, if_pos hm]
      exact ⟨rfl, rfl⟩
  · rintro m rfl hm
    rw [Sync.fetch_and_print_new_agent_response, if_neg hm]

/-- Witness for C1 at concrete inputs: a genuinely new message is
rendered, and a repeated fetch is a silent no-op. -/
theorem C1_witness :
    Sync.fetch_and_print_new_agent_response (some ⟨"m1", ["hello"], []⟩) none
      = ([Ev.getLastAgentMessage, Ev.logNewResponse, Ev.printAgentHeader,
          Ev.printAgentText "hello"], some "m1")
    ∧ Sync.fetch_and_print_new_agent_response none (some "m0")
      = ([Ev.getLastAgentMessage], some "m0") := by
  constructor
  · exact ((C1_detector_delta (some ⟨"m1", ["hello"], []⟩) none).2
      ⟨"m1", ["hello"], []⟩ rfl (by decide)).trans (by decide)
  · exact ((C1_detector_delta none (some "m0")).1 (Or.inl rfl)).1

/-- C10: when the created run's status is already terminal, the loop
body never executes: no events, no detector invocation, no status or
heartbeat line, and the tick count stays zero. -/
theorem C10_initial_terminal (s0 : String) (h : nonTerminal s0 = false)
    (script : List (String × Option ThreadMessage)) (lid : Option String) :
    Sync.pollLoop s0 script lid 0 = ([], s0, lid, 0) :=
  pollLoop_terminal s0 script lid 0 h

/-- Witness for C10: a run created directly in "completed" state. -/
theorem C10_witness :
    Sync.pollLoop "completed" [("queued", none)] (some "x") 0
      = ([], "completed", some "x", 0) :=
  C10_initial_terminal "completed" (by decide) [("queued", none)] (some "x")

/-- C5: on terminal status "failed" with no final agent message, the
post-loop sequence logs the completion line and the run's last error,
still fetches the final message, writes no file, and deletes the
agent. -/
theorem C5_failed_run (last_error : Option String) (run_id agent_id : String) :
    Sync.afterLoopEvents "failed" last_error run_id none agent_id
      = [Ev.logLine ("実行完了 - ステータス: failed, ID: " ++ run_id),
         Ev.logLine ("実行失敗: " ++ pyShowOpt last_error),
         Ev.logLine "最終メッセージを取得中...", Ev.getLastAgentMessage,
         Ev.deleteAgentCall agent_id, Ev.logLine "エージェントを削除しました"]
    ∧ (∀ p c, Ev.writeFile p c ∉ Sync.afterLoopEvents "failed" last_error run_id none agent_id)
    ∧ Ev.deleteAgentCall agent_id ∈ Sync.afterLoopEvents "failed" last_error run_id none agent_id := by
  refine ⟨rfl, ?_, ?_⟩
  · intro p c
    simp [Sync.afterLoopEvents]
  · simp [Sync.afterLoopEvents]

/-- C4 fails as stated: on the tick whose `runs.get` returns the
terminal status, the body still completes — the detector is invoked and
a status line is printed after the terminal status was observed.  Here
the first fetch returns "completed" (events at positions 2 and 3 follow
the terminal `getRun` at position 1). -/
theorem C4_counterexample :
    (Sync.pollLoop "queued" [("completed", none)] none 0).1
      = [Ev.sleep1, Ev.getRun, Ev.getLastAgentMessage, Ev.printRunStatus "completed"]
    ∧ Ev.getLastAgentMessage ∈ ((Sync.pollLoop "queued" [("completed", none)] none 0).1.drop 2)
    ∧ Ev.printRunStatus "completed" ∈ ((Sync.pollLoop "queued" [("completed", none)] none 0).1.drop 2) := by
  decide

/-- C4 amended: the loop stops at the end of the tick during which a
terminal status is fetched: the rest of the script is never consumed
(the traces and final states agree with the run truncated right after
the first terminal status), the final status is that terminal status,
and exactly `pre.length + 1` ticks occur. -/
theorem C4_terminal_stops (pre : List (String × Option ThreadMessage))
    (t : String) (mt : Option ThreadMessage)
    (post : List (String × Option ThreadMessage)) (s0 : String)
    (lid : Option String) (c : Nat)
    (h0 : nonTerminal s0 = true) (hpre : ∀ p ∈ pre, nonTerminal p.1 = true)
    (ht : nonTerminal t = false) :
    Sync.pollLoop s0 (pre ++ (t, mt) :: post) lid c = Sync.pollLoop s0 (pre ++ [(t, mt)]) lid c
    ∧ (Sync.pollLoop s0 (pre ++ [(t, mt)]) lid c).2.1 = t
    ∧ (Sync.pollLoop s0 (pre ++ [(t, mt)]) lid c).2.2.2 = c + (pre.length + 1) := by
  induction pre generalizing s0 lid c with
  | nil =>
    simp only [List.nil_append]
    rw [pollLoop_cons s0 t mt post lid c h0, pollLoop_cons s0 t mt [] lid c h0]
    rw [pollLoop_terminal t post _ _ ht, pollLoop_nil t _ _]
    exact ⟨rfl, rfl, rfl⟩
  | cons p pre ih =>
    obtain ⟨s1, m1⟩ := p
    have h1 : nonTerminal s1 = true := hpre (s1, m1) (List.mem_cons_self _ _)
    have hpre' : ∀ p ∈ pre, nonTerminal p.1 = true :=
      fun p hp => hpre p (List.mem_cons_of_mem _ hp)
    simp only [List.cons_append]
    rw [pollLoop_cons s0 s1 m1 (pre ++ (t, mt) :: post) lid c h0,
      pollLoop_cons s0 s1 m1 (pre ++ [(t, mt)]) lid c h0]
    obtain ⟨ih1, ih2, ih3⟩ := ih s1 (Sync.fetch_and_print_new_agent_response m1 lid).2 (c + 1) h1 hpre'
    refine ⟨by rw [ih1], by rw [ih2], ?_⟩
    rw [ih3]
    simp only [List.length_cons]
    omega

/-- Witness for the amended C4 on a concrete run: one non-terminal tick
followed by a terminal tick; a trailing script entry is never used. -/
theorem C4_witness :
    Sync.pollLoop "queued" [("in_progress", none), ("completed", none), ("queued", none)] none 0
      = Sync.pollLoop "queued" [("in_progress", none), ("completed", none)] none 0
    ∧ (Sync.pollLoop "queued" [("in_progress", none), ("completed", none)] none 0).2.1 = "completed"
    ∧ (Sync.pollLoop "queued" [("in_progress", none), ("completed", none)] none 0).2.2.2 = 0 + (1 + 1) :=
  C4_terminal_stops [("in_progress", none)] "completed" none [("queued", none)]
    "queued" none 0 (by decide) (by decide) (by decide)

/-- C9 fails as stated: the streaming print interpolates the title
directly, so an absent title is rendered as "None" rather than falling
back to the url. -/
theorem C9_counterexample :
    Ev.printCitation "URL Citation: [None](https://contoso.com)"
      ∈ (Sync.fetch_and_print_new_agent_response
          (some ⟨"m1", ["body"], [⟨none, "https://contoso.com"⟩]⟩) none).1
    ∧ Ev.printCitation "URL Citation: [https://contoso.com](https://contoso.com)"
      ∉ (Sync.fetch_and_print_new_agent_response
          (some ⟨"m1", ["body"], [⟨none, "https://contoso.com"⟩]⟩) none).1 := by
  decide

/-- C9 amended: on a new message, the streamed citation lines are
exactly one `URL Citation: [title](url)` line per annotation in original
order, the title interpolated as-is (an absent title renders as "None");
the url fallback for titles applies only in the summary writer. -/
theorem C9_citation_lines (m : ThreadMessage) (last : Option String)
    (h : some m.id ≠ last) :
    (Sync.fetch_and_print_new_agent_response (some m) last).1.filter isCitationEv
      = m.url_citation_annotations.map (fun ann => Ev.printCitation (citationLine ann)) := by
  rw [Sync.fetch_and_print_new_agent_response, if_neg h]
  simp only [List.filter_append, List.filter_cons, List.filter_nil]
  rw [List.filter_map]
  have hcomp : (isCitationEv ∘ fun ann => Ev.printCitation (citationLine ann))
      = fun _ => true :=
    funext fun ann => rfl
  rw [hcomp]
  simp [isCitationEv]

/-- Witness for the amended C9 at a concrete two-annotation message. -/
theorem C9_witness :
    (Sync.fetch_and_print_new_agent_response
        (some ⟨"m2", ["t"], [⟨some "T", "u"⟩, ⟨none, "v"⟩]⟩) none).1.filter isCitationEv
      = [Ev.printCitation "URL Citation: [T](u)", Ev.printCitation "URL Citation: [None](v)"] :=
  (C9_citation_lines ⟨"m2", ["t"], [⟨some "T", "u"⟩, ⟨none, "v"⟩]⟩ none (by decide)).trans
    (by decide)

/-- One step of the accumulator loop behind `List.eraseDups`. -/
theorem eraseDups_loop_cons (a : String) (l acc : List String) :
    List.eraseDups.loop (a :: l) acc
      = if a ∈ acc then List.eraseDups.loop l acc else List.eraseDups.loop l (a :: acc) := by
  rw [List.eraseDups.loop, List.elem_eq_mem]
  by_cases h : a ∈ acc <;> simp [h]

/-- The deduplication loop of the writer computes, in its url
component, exactly the accumulator loop behind `List.eraseDups` seeded
with the urls already seen. -/
theorem dedupCitations_urls (anns : List UrlCitation) : ∀ seen : List String,
    List.eraseDups.loop (anns.map UrlCitation.url) seen
      = seen.reverse ++ (Sync.dedupCitations seen anns).map Prod.snd := by
  induction anns with
  | nil =>
    intro seen
    rw [List.map_nil, List.eraseDups.loop, Sync.dedupCitations]
    simp
  | cons ann rest ih =>
    intro seen
    rw [List.map_cons, eraseDups_loop_cons, Sync.dedupCitations]
    by_cases h : ann.url ∈ seen
    · rw [if_pos h, if_pos h, ih seen]
    · rw [if_neg h, if_neg h, ih (ann.url :: seen)]
      simp

/-- The deduplication loop never outputs more entries than its input. -/
theorem dedupCitations_length (anns : List UrlCitation) :
    ∀ seen : List String, (Sync.dedupCitations seen anns).length ≤ anns.length := by
  induction anns with
  | nil =>
    intro seen
    rw [Sync.dedupCitations]
    simp
  | cons ann rest ih =>
    intro seen
    rw [Sync.dedupCitations, List.length_cons]
    by_cases h : ann.url ∈ seen
    · rw [if_pos h]
      exact (ih seen).trans (Nat.le_succ _)
    · rw [if_neg h, List.length_cons]
      exact Nat.succ_le_succ (ih (ann.url :: seen))

/-- Every entry the deduplication loop outputs has a fresh url and comes
from the first annotation in the remaining input carrying that url. -/
theorem dedupCitations_mem (anns : List UrlCitation) :
    ∀ seen : List String, ∀ p ∈ Sync.dedupCitations seen anns,
      p.2 ∉ seen ∧ ∃ ann, anns.find? (fun a => a.url == p.2) = some ann
        ∧ p = (orElseStr ann.title ann.url, ann.url) := by
  induction anns with
  | nil =>
    intro seen p hp
    rw [Sync.dedupCitations] at hp
    exact absurd hp (List.not_mem_nil p)
  | cons a rest ih =>
    intro seen p hp
    rw [Sync.dedupCitations] at hp
    by_cases h : a.url ∈ seen
    · rw [if_pos h] at hp
      obtain ⟨hns, ann, hfind, hp2⟩ := ih seen p hp
      refine ⟨hns, ann, ?_, hp2⟩
      rw [List.find?_cons]
      have hne : (a.url == p.2) = false := by
        simp only [beq_eq_false_iff_ne, ne_eq]
        intro he
        exact hns (he ▸ h)
      rw [hne]
      exact hfind
    · rw [if_neg h] at hp
      rcases List.mem_cons.mp hp with rfl | hp'
      · refine ⟨h, a, ?_, rfl⟩
        rw [List.find?_cons]
        simp
      · obtain ⟨hns, ann, hfind, hp2⟩ := ih (a.url :: seen) p hp'
        have hne : (a.url == p.2) = false := by
          simp only [beq_eq_false_iff_ne, ne_eq]
          intro he
          exact hns (he ▸ List.mem_cons_self _ _)
        refine ⟨fun hm => hns (List.mem_cons_of_mem _ hm), ann, ?_, hp2⟩
        rw [List.find?_cons, hne]
        exact hfind

/-- C2: the deduplicated reference entries carry each distinct url
exactly once in order of first appearance (their url sequence is the
duplicate-erasure of the input url sequence), never exceed the input in
number, and pair each url with the title of the first annotation
carrying that url, the url itself standing in for an absent (or empty,
Python-falsy) title. -/
theorem C2_dedup (anns : List UrlCitation) :
    (Sync.dedupCitations [] anns).map Prod.snd = (anns.map UrlCitation.url).eraseDups
    ∧ (Sync.dedupCitations [] anns).length ≤ anns.length
    ∧ ∀ p ∈ Sync.dedupCitations [] anns, ∃ ann,
        anns.find? (fun a => a.url == p.2) = some ann
        ∧ p = (orElseStr ann.title ann.url, ann.url) := by
  refine ⟨?_, dedupCitations_length anns [], ?_⟩
  · have h := dedupCitations_urls anns []
    rw [List.reverse_nil, List.nil_append] at h
    exact h.symm
  · intro p hp
    exact (dedupCitations_mem anns [] p hp).2

/-- Witness for C2: on two annotations sharing url "u", the first-seen
title "T" wins and the entry for "u" appears once. -/
theorem C2_witness :
    (∃ ann, ([⟨some "T", "u"⟩, ⟨some "S", "u"⟩, ⟨none, "v"⟩] : List UrlCitation).find?
        (fun a => a.url == "u") = some ann
      ∧ (("T", "u") : String × String) = (orElseStr ann.title ann.url, ann.url))
    ∧ (Sync.dedupCitations [] [⟨some "T", "u"⟩, ⟨some "S", "u"⟩, ⟨none, "v"⟩]).map Prod.snd
        = (([⟨some "T", "u"⟩, ⟨some "S", "u"⟩, ⟨none, "v"⟩] : List UrlCitation).map
            UrlCitation.url).eraseDups :=
  ⟨(C2_dedup [⟨some "T", "u"⟩, ⟨some "S", "u"⟩, ⟨none, "v"⟩]).2.2 ("T", "u") (by decide),
   (C2_dedup [⟨some "T", "u"⟩, ⟨some "S", "u"⟩, ⟨none, "v"⟩]).1⟩

/-- The detector trace consists only of its own five event shapes, so
any predicate false on those five filters it to nothing. -/
theorem detector_filter_eq_nil (p : Ev → Bool)
    (h1 : p Ev.getLastAgentMessage = false) (h2 : p Ev.logNewResponse = false)
    (h3 : p Ev.printAgentHeader = false) (h4 : ∀ s, p (Ev.printAgentText s) = false)
    (h5 : ∀ s, p (Ev.printCitation s) = false)
    (m : Option ThreadMessage) (lid : Option String) :
    (Sync.fetch_and_print_new_agent_response m lid).1.filter p = [] := by
  rw [List.filter_eq_nil_iff]
  intro e he
  cases m with
  | none =>
    rw [Sync.fetch_and_print_new_agent_response] at he
    simp only [List.mem_singleton] at he
    subst he
    simp [h1]
  | some r =>
    rw [Sync.fetch_and_print_new_agent_response] at he
    by_cases h : some r.id = lid
    · rw [if_pos h] at he
      simp only [List.mem_singleton] at he
      subst he
      simp [h1]
    · rw [if_neg h] at he
      simp only [List.mem_append, List.mem_cons, List.not_mem_nil, or_false,
        List.mem_map] at he
      rcases he with (rfl | rfl | rfl | rfl) | ⟨ann, _, rfl⟩
      · simp [h1]
      · simp [h2]
      · simp [h3]
      · simp [h4]
      · simp [h5]

/-- Along a script whose statuses stay non-terminal before its last
entry, the loop's per-tick progress lines are exactly `tickLines`. -/
theorem pollLoop_filter_tickLines (ss : List (String × Option ThreadMessage)) :
    ∀ (s0 : String) (lid : Option String) (c : Nat),
      nonTerminal s0 = true →
      (∀ i, i < ss.length - 1 → nonTerminal ((ss.getD i ("", none)).1) = true) →
      (Sync.pollLoop s0 ss lid c).1.filter isTickLine = tickLines c ss := by
  induction ss with
  | nil =>
    intro s0 lid c h0 _
    rw [pollLoop_nil, tickLines]
    rfl
  | cons sm rest ih =>
    obtain ⟨s, m⟩ := sm
    intro s0 lid c h0 hpre
    rw [pollLoop_cons s0 s m rest lid c h0, tickLines]
    have hdet := detector_filter_eq_nil isTickLine rfl rfl rfl (fun _ => rfl)
      (fun _ => rfl) m lid
    have hrest : (Sync.pollLoop s rest
        (Sync.fetch_and_print_new_agent_response m lid).2 (c + 1)).1.filter isTickLine
        = tickLines (c + 1) rest := by
      cases rest with
      | nil =>
        rw [pollLoop_nil, tickLines]
        rfl
      | cons r rs =>
        have hs : nonTerminal s = true := by
          have := hpre 0 (by simp)
          simpa using this
        refine ih s _ (c + 1) hs ?_
        intro i hi
        have := hpre (i + 1) (by simp only [List.length_cons] at hi ⊢; omega)
        simpa using this
    simp only [List.filter_cons, List.filter_append, hdet, hrest]
    by_cases hc : ((c + 1) % 10 == 0) = true
    · rw [if_pos hc]
      simp [isTickLine]
    · rw [if_neg hc]
      simp [isTickLine]

/-- Along a script whose statuses stay non-terminal before its last
entry, every entry of the script is consumed: the final tick count is
the starting count plus the script length. -/
theorem pollLoop_count (ss : List (String × Option ThreadMessage)) :
    ∀ (s0 : String) (lid : Option String) (c : Nat),
      nonTerminal s0 = true →
      (∀ i, i < ss.length - 1 → nonTerminal ((ss.getD i ("", none)).1) = true) →
      (Sync.pollLoop s0 ss lid c).2.2.2 = c + ss.length := by
  induction ss with
  | nil =>
    intro s0 lid c h0 _
    rw [pollLoop_nil]
    simp
  | cons sm rest ih =>
    obtain ⟨s, m⟩ := sm
    intro s0 lid c h0 hpre
    rw [pollLoop_cons s0 s m rest lid c h0]
    have hrest : (Sync.pollLoop s rest
        (Sync.fetch_and_print_new_agent_response m lid).2 (c + 1)).2.2.2
        = (c + 1) + rest.length := by
      cases rest with
      | nil =>
        rw [pollLoop_nil]
        simp
      | cons r rs =>
        have hs : nonTerminal s = true := by
          have := hpre 0 (by simp)
          simpa using this
        refine ih s _ (c + 1) hs ?_
        intro i hi
        have := hpre (i + 1) (by simp only [List.length_cons] at hi ⊢; omega)
        simpa using this
    simp only [hrest, List.length_cons]
    omega

/-- The heartbeat entries of the tick-line sequence sit exactly at the
tick numbers divisible by 10, carrying that tick's fetched status. -/
theorem tickLines_filter_heartbeat (ss : List (String × Option ThreadMessage)) :
    ∀ c : Nat,
      (tickLines c ss).filter isHeartbeat
        = ((List.range ss.length).filter (fun i => (c + i + 1) % 10 == 0)).map
            (fun i => Ev.logHeartbeat ((ss.getD i ("", none)).1) (c + i + 1)) := by
  induction ss with
  | nil =>
    intro c
    rw [tickLines]
    simp
  | cons sm rest ih =>
    obtain ⟨s, m⟩ := sm
    intro c
    rw [tickLines, List.length_cons, List.range_succ_eq_map, List.filter_cons,
      List.filter_cons]
    have hq : (fun i => ((c + i + 1) % 10 == 0)) ∘ Nat.succ
        = fun i => (((c + 1) + i + 1) % 10 == 0) := by
      funext i
      have : c + (i + 1) + 1 = (c + 1) + i + 1 := by omega
      simp [Function.comp, Nat.succ_eq_add_one, this]
    have hf : (fun i => Ev.logHeartbeat (((s, m) :: rest).getD i ("", none)).1 (c + i + 1))
        ∘ Nat.succ
        = fun i => Ev.logHeartbeat ((rest.getD i ("", none)).1) ((c + 1) + i + 1) := by
      funext i
      have : c + (i + 1) + 1 = (c + 1) + i + 1 := by omega
      simp [Function.comp, Nat.succ_eq_add_one, List.getD_cons_succ, this]
    by_cases hc : ((c + 1) % 10 == 0) = true
    · have hc0 : ((c + 0 + 1) % 10 == 0) = true := by simpa using hc
      rw [if_pos hc, if_pos hc0, List.map_cons]
      simp only [isHeartbeat]
      rw [if_pos trivial, List.filter_map, List.map_map, hq, hf, ih (c + 1)]
      simp
    · have hc0 : ((c + 0 + 1) % 10 == 0) = false := by
        simpa using (Bool.of_not_eq_true hc)
      rw [if_neg hc, hc0]
      simp only [Bool.false_eq_true, if_false]
      simp only [isHeartbeat]
      rw [if_neg (by simp), List.filter_map, List.map_map, hq, hf, ih (c + 1)]

/-- The plain-status entries of the tick-line sequence sit exactly at
the tick numbers not divisible by 10, carrying that tick's status. -/
theorem tickLines_filter_plain (ss : List (String × Option ThreadMessage)) :
    ∀ c : Nat,
      (tickLines c ss).filter isPlainStatus
        = ((List.range ss.length).filter (fun i => !((c + i + 1) % 10 == 0))).map
            (fun i => Ev.printRunStatus ((ss.getD i ("", none)).1)) := by
  induction ss with
  | nil =>
    intro c
    rw [tickLines]
    simp
  | cons sm rest ih =>
    obtain ⟨s, m⟩ := sm
    intro c
    rw [tickLines, List.length_cons, List.range_succ_eq_map, List.filter_cons,
      List.filter_cons]
    have hq : (fun i => !((c + i + 1) % 10 == 0)) ∘ Nat.succ
        = fun i => !(((c + 1) + i + 1) % 10 == 0) := by
      funext i
      have : c + (i + 1) + 1 = (c + 1) + i + 1 := by omega
      simp [Function.comp, Nat.succ_eq_add_one, this]
    have hf : (fun i => Ev.printRunStatus (((s, m) :: rest).getD i ("", none)).1)
        ∘ Nat.succ
        = fun i => Ev.printRunStatus ((rest.getD i ("", none)).1) := by
      funext i
      simp [Function.comp, List.getD_cons_succ]
    by_cases hc : ((c + 1) % 10 == 0) = true
    · have hc0 : (!((c + 0 + 1) % 10 == 0)) = false := by simpa using hc
      rw [if_pos hc, hc0]
      simp only [Bool.false_eq_true, if_false]
      simp only [isPlainStatus]
      rw [if_neg (by simp), List.filter_map, List.map_map, hq, hf, ih (c + 1)]
    · have hc1 : ((c + 1) % 10 == 0) = false := Bool.of_not_eq_true hc
      have hc0 : (!((c + 0 + 1) % 10 == 0)) = true := by simpa using hc1
      rw [if_neg hc, if_pos hc0, List.map_cons]
      simp only [isPlainStatus]
      rw [if_pos trivial, List.filter_map, List.map_map, hq, hf, ih (c + 1)]
      simp

/-- Counting the tick numbers in `(c, c+N]` divisible by 10. -/
theorem length_range_filter_heartbeat (N c : Nat) :
    ((List.range N).filter (fun i => (c + i + 1) % 10 == 0)).length
      = (c + N) / 10 - c / 10 := by
  induction N with
  | zero => simp
  | succ n ih =>
    rw [List.range_succ, List.filter_append, List.length_append, ih]
    have hsucc : (c + n + 1) / 10 = (c + n) / 10 + if 10 ∣ c + n + 1 then 1 else 0 :=
      Nat.succ_div (c + n) 10
    have hle : c / 10 ≤ (c + n) / 10 := Nat.div_le_div_right (Nat.le_add_right _ _)
    have hceq : c + (n + 1) = c + n + 1 := by omega
    by_cases h : (c + n + 1) % 10 = 0
    · have hq : ((c + n + 1) % 10 == 0) = true := by simpa using h
      have hd : 10 ∣ c + n + 1 := Nat.dvd_iff_mod_eq_zero.mpr h
      have h10 : (c + n + 1) / 10 = (c + n) / 10 + 1 := by rw [hsucc, if_pos hd]
      simp only [List.filter_cons, List.filter_nil, hq, if_true, List.length_singleton]
      rw [hceq, h10]
      omega
    · have hq : ((c + n + 1) % 10 == 0) = false := by simpa using h
      have hd : ¬ 10 ∣ c + n + 1 := fun hdd => h (Nat.dvd_iff_mod_eq_zero.mp hdd)
      have h10 : (c + n + 1) / 10 = (c + n) / 10 := by rw [hsucc, if_neg hd]; omega
      simp only [List.filter_cons, List.filter_nil, hq, Bool.false_eq_true, if_false,
        List.length_nil]
      rw [hceq, h10]
      omega

/-- Splitting a list's length by a boolean predicate. -/
theorem length_filter_bool_split {α : Type} (p : α → Bool) (l : List α) :
    (l.filter p).length + (l.filter (fun a => ! p a)).length = l.length := by
  induction l with
  | nil => rfl
  | cons a l ih =>
    cases h : p a <;> simp [List.filter_cons, h, ← ih] <;> omega

/-- C3: in a run of exactly `N ≥ 10` ticks whose fetched statuses stay
non-terminal until the `N`-th tick, the loop emits the timestamped
heartbeat line exactly at ticks 10, 20, 30, … (so `N / 10` times) and
the plain `Run status:` line exactly at every other tick
(`N - N / 10` times). -/
theorem C3_heartbeat_pattern (ss : List (String × Option ThreadMessage)) (s0 : String)
    (N : Nat) (hN : ss.length = N) (h10 : 10 ≤ N)
    (h0 : nonTerminal s0 = true)
    (hmid : ∀ i, i < ss.length - 1 → nonTerminal ((ss.getD i ("", none)).1) = true)
    (hlast : nonTerminal ((ss.getD (N - 1) ("", none)).1) = false) :
    (Sync.pollLoop s0 ss none 0).2.2.2 = N
    ∧ (Sync.pollLoop s0 ss none 0).1.filter isHeartbeat
        = ((List.range N).filter (fun i => (i + 1) % 10 == 0)).map
            (fun i => Ev.logHeartbeat ((ss.getD i ("", none)).1) (i + 1))
    ∧ ((Sync.pollLoop s0 ss none 0).1.filter isHeartbeat).length = N / 10
    ∧ (Sync.pollLoop s0 ss none 0).1.filter isPlainStatus
        = ((List.range N).filter (fun i => !((i + 1) % 10 == 0))).map
            (fun i => Ev.printRunStatus ((ss.getD i ("", none)).1))
    ∧ ((Sync.pollLoop s0 ss none 0).1.filter isPlainStatus).length = N - N / 10 := by
  subst hN
  have hA := pollLoop_filter_tickLines ss s0 none 0 h0 hmid
  have hhb : (Sync.pollLoop s0 ss none 0).1.filter isHeartbeat
      = (tickLines 0 ss).filter isHeartbeat := by
    rw [← hA, List.filter_filter]
    congr 1
    funext e
    cases e <;> rfl
  have hps : (Sync.pollLoop s0 ss none 0).1.filter isPlainStatus
      = (tickLines 0 ss).filter isPlainStatus := by
    rw [← hA, List.filter_filter]
    congr 1
    funext e
    cases e <;> rfl
  have hq0 : (fun i => ((0 + i + 1) % 10 == 0)) = fun i => ((i + 1) % 10 == 0) := by
    funext i
    rw [Nat.zero_add]
  have hq0n : (fun i => !((0 + i + 1) % 10 == 0)) = fun i => !((i + 1) % 10 == 0) := by
    funext i
    rw [Nat.zero_add]
  have hf0 : (fun i => Ev.logHeartbeat ((ss.getD i ("", none)).1) (0 + i + 1))
      = fun i => Ev.logHeartbeat ((ss.getD i ("", none)).1) (i + 1) := by
    funext i
    rw [Nat.zero_add]
  have hhb2 : (Sync.pollLoop s0 ss none 0).1.filter isHeartbeat
      = ((List.range ss.length).filter (fun i => (i + 1) % 10 == 0)).map
          (fun i => Ev.logHeartbeat ((ss.getD i ("", none)).1) (i + 1)) := by
    rw [hhb, tickLines_filter_heartbeat ss 0, hq0, hf0]
  have hps2 : (Sync.pollLoop s0 ss none 0).1.filter isPlainStatus
      = ((List.range ss.length).filter (fun i => !((i + 1) % 10 == 0))).map
          (fun i => Ev.printRunStatus ((ss.getD i ("", none)).1)) := by
    rw [hps, tickLines_filter_plain ss 0, hq0n]
  have hcount := pollLoop_count ss s0 none 0 h0 hmid
  have hlenhb : ((Sync.pollLoop s0 ss none 0).1.filter isHeartbeat).length
      = ss.length / 10 := by
    rw [hhb2, List.length_map]
    have := length_range_filter_heartbeat ss.length 0
    rw [hq0] at this
    rw [this]
    omega
  have hsplit := length_filter_bool_split (fun i => ((i + 1) % 10 == 0)) (List.range ss.length)
  have hlenps : ((Sync.pollLoop s0 ss none 0).1.filter isPlainStatus).length
      = ss.length - ss.length / 10 := by
    rw [hps2, List.length_map]
    have hhblen : ((List.range ss.length).filter (fun i => ((i + 1) % 10 == 0))).length
        = ss.length / 10 := by
      have := length_range_filter_heartbeat ss.length 0
      rw [hq0] at this
      rw [this]
      omega
    rw [List.length_range] at hsplit
    omega
  exact ⟨by rw [hcount]; omega, hhb2, hlenhb, hps2, hlenps⟩

/-- Witness for C3 on a 10-tick run: one heartbeat (at tick 10, with the
status fetched on that tick) and nine plain status lines. -/
theorem C3_witness :
    (Sync.pollLoop "queued"
        (List.replicate 9 ("in_progress", (none : Option ThreadMessage))
          ++ [("completed", none)]) none 0).2.2.2 = 10
    ∧ (Sync.pollLoop "queued"
        (List.replicate 9 ("in_progress", (none : Option ThreadMessage))
          ++ [("completed", none)]) none 0).1.filter isHeartbeat
        = [Ev.logHeartbeat "completed" 10]
    ∧ ((Sync.pollLoop "queued"
        (List.replicate 9 ("in_progress", (none : Option ThreadMessage))
          ++ [("completed", none)]) none 0).1.filter isPlainStatus).length = 10 - 10 / 10 := by
  have h := C3_heartbeat_pattern
    (List.replicate 9 ("in_progress", (none : Option ThreadMessage)) ++ [("completed", none)])
    "queued" 10 (by decide) (by decide) (by decide) (by decide) (by decide)
  exact ⟨h.1, h.2.1.trans (by decide), h.2.2.2.2⟩

/-- C6 fails as stated: a message whose own text contains the heading
string yields a file containing `## References` even though its
citation list is empty. -/
theorem C6_counterexample :
    ("## References").data <:+: (Sync.summaryContent ⟨"id", ["## References"], []⟩).data
    ∧ (⟨"id", ["## References"], []⟩ : ThreadMessage).url_citation_annotations = [] := by
  constructor
  · have h : Sync.summaryContent ⟨"id", ["## References"], []⟩ = "## References" := by decide
    rw [h]
  · rfl

/-- C6 amended: provided the body text does not itself contain the
substring `## References`, the written file contains that heading if and
only if the citation list is non-empty; the file is always the body
followed by the references section, which is empty for no citations and
otherwise the heading followed by exactly one markdown item per
deduplicated entry. -/
theorem C6_references_heading (m : ThreadMessage)
    (hbody : ¬ ("## References").data <:+: (Sync.summaryBody m).data) :
    Sync.summaryContent m = Sync.summaryBody m ++ Sync.referencesSection m
    ∧ (m.url_citation_annotations = [] → Sync.summaryContent m = Sync.summaryBody m)
    ∧ (m.url_citation_annotations ≠ [] →
        Sync.referencesSection m = "\n\n## References\n" ++
          String.join ((Sync.dedupCitations [] m.url_citation_annotations).map
            (fun p => "- [" ++ p.1 ++ "](" ++ p.2 ++ ")\n")))
    ∧ (("## References").data <:+: (Sync.summaryContent m).data
        ↔ m.url_citation_annotations ≠ []) := by
  have hempty : m.url_citation_annotations = [] → Sync.summaryContent m = Sync.summaryBody m := by
    intro h
    rw [Sync.summaryContent, Sync.referencesSection, h]
    simp [String.append_empty]
  have hfull : m.url_citation_annotations ≠ [] →
      Sync.referencesSection m = "\n\n## References\n" ++
        String.join ((Sync.dedupCitations [] m.url_citation_annotations).map
          (fun p => "- [" ++ p.1 ++ "](" ++ p.2 ++ ")\n")) := by
    intro h
    rw [Sync.referencesSection, if_neg (by simpa using h)]
  refine ⟨rfl, hempty, hfull, ?_, ?_⟩
  · intro hocc
    rcases eq_or_ne m.url_citation_annotations [] with he | hne
    · rw [hempty he] at hocc
      exact absurd hocc hbody
    · exact hne
  · intro hne
    rw [Sync.summaryContent, hfull hne]
    refine ⟨(Sync.summaryBody m).data ++ ("\n\n").data,
      ("\n").data ++ (String.join ((Sync.dedupCitations [] m.url_citation_annotations).map
        (fun p => "- [" ++ p.1 ++ "](" ++ p.2 ++ ")\n"))).data, ?_⟩
    rw [String.data_append, String.data_append]
    have hlit : ("\n\n## References\n").data
        = ("\n\n").data ++ ("## References").data ++ ("\n").data := by decide
    rw [hlit]
    simp [List.append_assoc]

/-- Witness for the amended C6: a two-citation message gets the heading
and two items; a citation-free message gets the bare body. -/
theorem C6_witness :
    (("## References").data <:+:
        (Sync.summaryContent ⟨"id", ["body text"], [⟨some "T", "u"⟩, ⟨some "T", "u"⟩]⟩).data
      ↔ ([⟨some "T", "u"⟩, ⟨some "T", "u"⟩] : List UrlCitation) ≠ [])
    ∧ Sync.summaryContent ⟨"id", ["body text"], []⟩ = Sync.summaryBody ⟨"id", ["body text"], []⟩ :=
  ⟨(C6_references_heading ⟨"id", ["body text"], [⟨some "T", "u"⟩, ⟨some "T", "u"⟩]⟩
      (by decide)).2.2.2,
   (C6_references_heading ⟨"id", ["body text"], []⟩ (by decide)).2.1 rfl⟩

/-- Data of the accumulator loop behind `String.intercalate`. -/
theorem intercalate_go_data (sep : String) (l : List String) : ∀ acc : String,
    (String.intercalate.go acc sep l).data
      = acc.data ++ (l.map (fun a => sep.data ++ a.data)).flatten := by
  induction l with
  | nil =>
    intro acc
    rw [String.intercalate.go]
    simp
  | cons a as ih =>
    intro acc
    rw [String.intercalate.go, ih (acc ++ sep ++ a)]
    simp [String.data_append, List.append_assoc]

/-- Unfolding of `List.intercalate` on a non-empty list of parts. -/
theorem list_intercalate_eq (sep x : List Char) (xs : List (List Char)) :
    List.intercalate sep (x :: xs) = x ++ (xs.map (fun a => sep ++ a)).flatten := by
  induction xs generalizing x with
  | nil => simp [List.intercalate, List.intersperse]
  | cons y ys ih =>
    have hstep : List.intersperse sep (x :: y :: ys)
        = x :: sep :: List.intersperse sep (y :: ys) := rfl
    rw [List.intercalate, hstep, List.flatten_cons, List.flatten_cons,
      ← List.intercalate, ih y]
    simp [List.append_assoc]

/-- Two-part unfolding of `List.intercalate`. -/
theorem list_intercalate_cons_cons (sep x y : List Char) (ys : List (List Char)) :
    List.intercalate sep (x :: y :: ys) = x ++ sep ++ List.intercalate sep (y :: ys) := by
  rw [list_intercalate_eq, list_intercalate_eq sep y ys]
  simp [List.append_assoc]

/-- The characters of `String.intercalate` are the `List.intercalate`
of the characters of its parts. -/
theorem intercalate_data (sep : String) (l : List String) :
    (String.intercalate sep l).data = List.intercalate sep.data (l.map String.data) := by
  cases l with
  | nil => rfl
  | cons a as =>
    rw [String.intercalate, intercalate_go_data, List.map_cons, list_intercalate_eq]
    simp only [List.map_map]
    rfl

/-- A head character of an intercalation of non-empty parts is the head
character of one of the parts. -/
theorem intercalate_head?_mem (sep : List Char) (parts : List (List Char))
    (hne : ∀ p ∈ parts, p ≠ []) :
    ∀ c, (List.intercalate sep parts).head? = some c → ∃ p ∈ parts, p.head? = some c := by
  intro c hc
  cases parts with
  | nil => simp [List.intercalate, List.intersperse] at hc
  | cons x xs =>
    rw [list_intercalate_eq, List.head?_append] at hc
    cases x with
    | nil => exact absurd rfl (hne [] (by simp))
    | cons a x' =>
      rw [List.head?_cons] at hc
      have hac : a = c := by simpa using hc
      exact ⟨a :: x', by simp, by rw [List.head?_cons, hac]⟩

/-- A last character of an intercalation of non-empty parts is the last
character of one of the parts. -/
theorem intercalate_getLast?_mem (sep : List Char) (parts : List (List Char))
    (hne : ∀ p ∈ parts, p ≠ []) :
    ∀ c, (List.intercalate sep parts).getLast? = some c → ∃ p ∈ parts, p.getLast? = some c := by
  induction parts with
  | nil =>
    intro c hc
    simp [List.intercalate, List.intersperse] at hc
  | cons x xs ih =>
    intro c hc
    cases xs with
    | nil =>
      have hone : List.intercalate sep [x] = x := by
        simp [List.intercalate, List.intersperse]
      rw [hone] at hc
      exact ⟨x, by simp, hc⟩
    | cons y ys =>
      rw [list_intercalate_cons_cons, List.getLast?_append] at hc
      have hR : List.intercalate sep (y :: ys) ≠ [] := by
        rw [list_intercalate_eq]
        intro h
        exact hne y (by simp) (List.append_eq_nil.mp h).1
      cases hRl : (List.intercalate sep (y :: ys)).getLast? with
      | none => exact absurd (List.getLast?_eq_none_iff.mp hRl) hR
      | some d =>
        rw [hRl] at hc
        have hd : d = c := by simpa using hc
        obtain ⟨p, hp, hpl⟩ := ih (fun p hp => hne p (List.mem_cons_of_mem _ hp)) c (hd ▸ hRl)
        exact ⟨p, List.mem_cons_of_mem _ hp, hpl⟩

/-- The first character of a stripped non-empty segment is not
whitespace. -/
theorem stripChars_head?_not_ws (l : List Char) :
    ∀ c, (stripChars l).head? = some c → c.isWhitespace = false := by
  intro c hc
  rw [stripChars, List.head?_reverse] at hc
  obtain ⟨s, hs⟩ := List.dropWhile_suffix
    (l := (l.dropWhile Char.isWhitespace).reverse) Char.isWhitespace
  have hx : ((l.dropWhile Char.isWhitespace).reverse).getLast? = some c := by
    rw [← hs, List.getLast?_append, hc]
    rfl
  rw [List.getLast?_reverse] at hx
  have hne : l.dropWhile Char.isWhitespace ≠ [] := by
    intro h
    rw [h] at hx
    simp at hx
  rw [List.head?_eq_head hne] at hx
  exact (Option.some.inj hx) ▸ List.head_dropWhile_not Char.isWhitespace l hne

/-- The last character of a stripped non-empty segment is not
whitespace. -/
theorem stripChars_getLast?_not_ws (l : List Char) :
    ∀ c, (stripChars l).getLast? = some c → c.isWhitespace = false := by
  intro c hc
  rw [stripChars, List.getLast?_reverse] at hc
  have hne : ((l.dropWhile Char.isWhitespace).reverse).dropWhile Char.isWhitespace ≠ [] := by
    intro h
    rw [h] at hc
    simp at hc
  rw [List.head?_eq_head hne] at hc
  exact (Option.some.inj hc) ▸
    List.head_dropWhile_not Char.isWhitespace ((l.dropWhile Char.isWhitespace).reverse) hne

/-- Extending a list on the left preserves a detected triple. -/
theorem hasTriple_cons (a : Char) (l : List Char) (h : hasTriple l = true) :
    hasTriple (a :: l) = true := by
  match l with
  | [] => exact absurd h (by simp [hasTriple])
  | [b] => exact absurd h (by simp [hasTriple])
  | b :: c :: r =>
    rw [hasTriple, h]
    simp

/-- A detected triple is three consecutive newline characters. -/
theorem infix_of_hasTriple (l : List Char) (h : hasTriple l = true) :
    ['\n', '\n', '\n'] <:+: l := by
  induction l with
  | nil => exact absurd h (by simp [hasTriple])
  | cons a l ih =>
    cases l with
    | nil => exact absurd h (by simp [hasTriple])
    | cons b l2 =>
      cases l2 with
      | nil => exact absurd h (by simp [hasTriple])
      | cons c r =>
        rw [hasTriple] at h
        simp only [Bool.or_eq_true, Bool.and_eq_true, beq_iff_eq] at h
        rcases h with ⟨⟨rfl, rfl⟩, rfl⟩ | h2
        · exact ⟨[], r, rfl⟩
        · exact List.infix_cons (ih h2)

/-- Three consecutive newline characters are detected by the scanner. -/
theorem hasTriple_of_infix (l : List Char) (h : ['\n', '\n', '\n'] <:+: l) :
    hasTriple l = true := by
  obtain ⟨s, t, rfl⟩ := h
  induction s with
  | nil => simp [hasTriple]
  | cons a s' ih =>
    rw [List.cons_append]
    exact hasTriple_cons a _ ih

/-- Joining two triple-free lists with a two-newline separator stays
triple-free when the left list does not end in a newline and the right
list does not start with one. -/
theorem hasTriple_append_sep (ys : List Char) (hys : hasTriple ys = false)
    (hy : ∀ c, ys.head? = some c → c ≠ '\n') :
    ∀ xs : List Char, hasTriple xs = false →
      (∀ c, xs.getLast? = some c → c ≠ '\n') →
      hasTriple (xs ++ '\n' :: '\n' :: ys) = false := by
  have hbase : hasTriple ('\n' :: '\n' :: ys) = false := by
    cases ys with
    | nil => rfl
    | cons y ys' =>
      have hy' : y ≠ '\n' := hy y rfl
      cases ys' with
      | nil => simp [hasTriple, hy']
      | cons z zs => simp [hasTriple, hy', hys]
  intro xs
  induction xs with
  | nil =>
    intro _ _
    simpa using hbase
  | cons a xs' ih =>
    intro hxs hx
    cases xs' with
    | nil =>
      have ha : a ≠ '\n' := hx a (by simp)
      show hasTriple (a :: '\n' :: '\n' :: ys) = false
      rw [hasTriple]
      simp [ha, hbase]
    | cons b xs'' =>
      have hx' : ∀ c, (b :: xs'').getLast? = some c → c ≠ '\n' := by
        intro c hc
        exact hx c (by rw [List.getLast?_cons_cons]; exact hc)
      have hxs' : hasTriple (b :: xs'') = false := by
        cases xs'' with
        | nil => rfl
        | cons c r =>
          rw [hasTriple] at hxs
          exact (Bool.or_eq_false_iff.mp hxs).2
      have h2 := ih hxs' hx'
      simp only [List.cons_append] at h2 ⊢
      cases xs'' with
      | nil =>
        have hb : b ≠ '\n' := hx b (by simp)
        simp only [List.nil_append] at h2 ⊢
        rw [hasTriple]
        simp [hb, h2]
      | cons c r =>
        rw [hasTriple] at hxs
        simp only [List.cons_append] at h2
        simp only [hasTriple]
        simp [(Bool.or_eq_false_iff.mp hxs).1, h2]

/-- Intercalating triple-free parts whose boundary characters are not
newlines with the two-newline separator yields a triple-free result
whose head character is a part's head character. -/
theorem hasTriple_intercalate (parts : List (List Char))
    (hparts : ∀ p ∈ parts, hasTriple p = false ∧ p ≠ []
      ∧ (∀ c, p.head? = some c → c ≠ '\n') ∧ (∀ c, p.getLast? = some c → c ≠ '\n')) :
    hasTriple (List.intercalate ['\n', '\n'] parts) = false
    ∧ (∀ c, (List.intercalate ['\n', '\n'] parts).head? = some c → c ≠ '\n') := by
  induction parts with
  | nil =>
    refine ⟨rfl, ?_⟩
    intro c hc
    simp [List.intercalate, List.intersperse] at hc
  | cons x xs ih =>
    obtain ⟨hx3, hxne, hxh, hxl⟩ := hparts x (List.mem_cons_self _ _)
    cases xs with
    | nil =>
      have hone : List.intercalate ['\n', '\n'] [x] = x := by
        simp [List.intercalate, List.intersperse]
      rw [hone]
      exact ⟨hx3, hxh⟩
    | cons y ys =>
      have ih' := ih (fun p hp => hparts p (List.mem_cons_of_mem _ hp))
      rw [list_intercalate_cons_cons]
      have hassoc : x ++ ['\n', '\n'] ++ List.intercalate ['\n', '\n'] (y :: ys)
          = x ++ '\n' :: '\n' :: List.intercalate ['\n', '\n'] (y :: ys) := by
        simp
      rw [hassoc]
      constructor
      · exact hasTriple_append_sep _ ih'.1 ih'.2 x hx3 hxl
      · intro c hc
        rw [List.head?_append] at hc
        cases x with
        | nil => exact absurd rfl hxne
        | cons a x' =>
          rw [List.head?_cons] at hc
          have hac : a = c := by simpa using hc
          exact hac ▸ hxh a (by rw [List.head?_cons])

/-- C7 fails as stated: a segment stripping to the empty string makes
the body begin with the blank-line separator (leading whitespace), and
blank lines inside a segment survive, so the body can hold two
consecutive blank lines. -/
theorem C7_counterexample :
    (Sync.summaryBody ⟨"id", ["", "a\n\n\nb"], []⟩).data.head? = some '\n'
    ∧ ('\n').isWhitespace = true
    ∧ ['\n', '\n', '\n'] <:+: (Sync.summaryBody ⟨"id", ["", "a\n\n\nb"], []⟩).data := by
  refine ⟨by decide, by decide, by decide⟩

/-- C7 amended: the body is each segment stripped and joined with one
blank-line separator, unconditionally; when every segment strips to
something non-empty, the body has no leading or trailing whitespace;
and when additionally no stripped segment itself contains two
consecutive blank lines (three consecutive newlines), neither does the
body — the Writer inserts exactly one blank line between consecutive
segments. -/
theorem C7_body_trimmed_join (m : ThreadMessage) :
    Sync.summaryBody m = String.intercalate "\n\n" (m.text_messages.map pyStrip)
    ∧ ((∀ t ∈ m.text_messages, stripChars t.data ≠ []) →
        (∀ c, (Sync.summaryBody m).data.head? = some c → c.isWhitespace = false)
        ∧ (∀ c, (Sync.summaryBody m).data.getLast? = some c → c.isWhitespace = false))
    ∧ ((∀ t ∈ m.text_messages, stripChars t.data ≠ []) →
        (∀ t ∈ m.text_messages, ¬ ['\n', '\n', '\n'] <:+: stripChars t.data) →
        ¬ ['\n', '\n', '\n'] <:+: (Sync.summaryBody m).data) := by
  have hdata : (Sync.summaryBody m).data
      = List.intercalate ['\n', '\n'] (m.text_messages.map (fun t => stripChars t.data)) := by
    rw [Sync.summaryBody, intercalate_data, List.map_map]
    rfl
  refine ⟨rfl, ?_, ?_⟩
  · intro hne
    have hpartsne : ∀ p ∈ m.text_messages.map (fun t => stripChars t.data), p ≠ [] := by
      intro p hp
      obtain ⟨t, ht, rfl⟩ := List.mem_map.mp hp
      exact hne t ht
    constructor
    · intro c hc
      rw [hdata] at hc
      obtain ⟨p, hp, hph⟩ := intercalate_head?_mem _ _ hpartsne c hc
      obtain ⟨t, ht, rfl⟩ := List.mem_map.mp hp
      exact stripChars_head?_not_ws t.data c hph
    · intro c hc
      rw [hdata] at hc
      obtain ⟨p, hp, hpl⟩ := intercalate_getLast?_mem _ _ hpartsne c hc
      obtain ⟨t, ht, rfl⟩ := List.mem_map.mp hp
      exact stripChars_getLast?_not_ws t.data c hpl
  · intro hne htrip habs
    rw [hdata] at habs
    have h3 := hasTriple_of_infix _ habs
    have hfold := (hasTriple_intercalate (m.text_messages.map fun t => stripChars t.data) ?_).1
    · rw [hfold] at h3
      simp at h3
    · intro p hp
      obtain ⟨t, ht, rfl⟩ := List.mem_map.mp hp
      refine ⟨?_, hne t ht, ?_, ?_⟩
      · cases htr : hasTriple (stripChars t.data) with
        | false => rfl
        | true => exact absurd (infix_of_hasTriple _ htr) (htrip t ht)
      · intro c hc hceq
        subst hceq
        have := stripChars_head?_not_ws t.data _ hc
        simp at this
      · intro c hc hceq
        subst hceq
        have := stripChars_getLast?_not_ws t.data _ hc
        simp at this

/-- Witness for the amended C7: two ordinary segments joined by one
blank line, starting with the non-whitespace character of the first
trimmed segment. -/
theorem C7_witness :
    ('h').isWhitespace = false
    ∧ ¬ ['\n', '\n', '\n'] <:+: (Sync.summaryBody ⟨"id", [" hello ", "world"], []⟩).data := by
  have h := C7_body_trimmed_join ⟨"id", [" hello ", "world"], []⟩
  exact ⟨(h.2.1 (by decide)).1 'h' (by decide), h.2.2 (by decide) (by decide)⟩

/-- The two scripts transcribe the same detector. -/
theorem fetch_sync_async_eq (m : Option ThreadMessage) (lid : Option String) :
    Sync.fetch_and_print_new_agent_response m lid
      = Async.fetch_and_print_new_agent_response m lid := by
  cases m with
  | none => rfl
  | some r =>
    rw [Sync.fetch_and_print_new_agent_response, Async.fetch_and_print_new_agent_response]

/-- The two scripts transcribe the same deduplication loop. -/
theorem dedup_sync_async_eq (anns : List UrlCitation) : ∀ seen : List String,
    Sync.dedupCitations seen anns = Async.dedupCitations seen anns := by
  induction anns with
  | nil =>
    intro seen
    rfl
  | cons a rest ih =>
    intro seen
    rw [Sync.dedupCitations, Async.dedupCitations]
    by_cases h : a.url ∈ seen
    · rw [if_pos h, if_pos h, ih seen]
    · rw [if_neg h, if_neg h, ih (a.url :: seen)]

/-- The two scripts write the same summary file content. -/
theorem summaryContent_sync_async_eq (m : ThreadMessage) :
    Sync.summaryContent m = Async.summaryContent m := by
  rw [Sync.summaryContent, Async.summaryContent, Sync.referencesSection, Async.referencesSection,
    dedup_sync_async_eq m.url_citation_annotations []]
  rfl

/-- The two scripts transcribe the same summary writer. -/
theorem create_summary_sync_async_eq (m : Option ThreadMessage) (fp : String) :
    Sync.create_research_summary m fp = Async.create_research_summary m fp := by
  cases m with
  | none => rfl
  | some mm =>
    rw [Sync.create_research_summary, Async.create_research_summary,
      summaryContent_sync_async_eq]

/-- Unfolding of the async poll loop on an exhausted script. -/
theorem pollLoopA_nil (s : String) (lid : Option String) (c : Nat) :
    Async.pollLoop s [] lid c = ([], s, lid, c) := by
  rw [Async.pollLoop.eq_def]
  cases h : nonTerminal s <;> simp

/-- Unfolding of the async poll loop at a terminal current status. -/
theorem pollLoopA_terminal (s : String) (script : List (String × Option ThreadMessage))
    (lid : Option String) (c : Nat) (h : nonTerminal s = false) :
    Async.pollLoop s script lid c = ([], s, lid, c) := by
  rw [Async.pollLoop.eq_def, h]
  rfl

/-- Unfolding of the async poll loop for one tick. -/
theorem pollLoopA_cons (s0 s : String) (m : Option ThreadMessage)
    (rest : List (String × Option ThreadMessage)) (lid : Option String) (c : Nat)
    (h0 : nonTerminal s0 = true) :
    Async.pollLoop s0 ((s, m) :: rest) lid c =
      (Ev.sleep1 :: Ev.getRun :: (Async.fetch_and_print_new_agent_response m lid).1
        ++ [if (c + 1) % 10 == 0 then Ev.logHeartbeat s (c + 1) else Ev.printRunStatus s]
        ++ (Async.pollLoop s rest (Async.fetch_and_print_new_agent_response m lid).2 (c + 1)).1,
       (Async.pollLoop s rest (Async.fetch_and_print_new_agent_response m lid).2 (c + 1)).2) := by
  rw [Async.pollLoop.eq_def, h0]
  rfl

/-- The two scripts transcribe the same polling loop. -/
theorem pollLoop_sync_async_eq (script : List (String × Option ThreadMessage)) :
    ∀ (s : String) (lid : Option String) (c : Nat),
      Sync.pollLoop s script lid c = Async.pollLoop s script lid c := by
  induction script with
  | nil =>
    intro s lid c
    rw [pollLoop_nil, pollLoopA_nil]
  | cons sm rest ih =>
    intro s lid c
    obtain ⟨s1, m1⟩ := sm
    cases h : nonTerminal s with
    | false => rw [pollLoop_terminal _ _ _ _ h, pollLoopA_terminal _ _ _ _ h]
    | true =>
      rw [pollLoop_cons _ _ _ _ _ _ h, pollLoopA_cons _ _ _ _ _ _ h,
        fetch_sync_async_eq, ih]

/-- The two scripts transcribe the same terminal handling. -/
theorem afterLoop_sync_async_eq (fs : String) (le : Option String) (rid : String)
    (fm : Option ThreadMessage) (aid : String) :
    Sync.afterLoopEvents fs le rid fm aid = Async.afterLoopEvents fs le rid fm aid := by
  rw [Sync.afterLoopEvents.eq_def, Async.afterLoopEvents.eq_def]
  cases fm with
  | none => rfl
  | some mm => simp [create_summary_sync_async_eq]

/-- C8 amended: from run creation through agent deletion (the
poll-and-summarize sequence both claims cite), the synchronous and
asynchronous scripts produce identical event traces — the same console
output, the same collaborator calls, and the same file content — for
every remote-response script. -/
theorem C8_poll_and_summarize_eq (run_id s0 : String)
    (script : List (String × Option ThreadMessage)) (last_error : Option String)
    (final_message : Option ThreadMessage) (agent_id : String) :
    Sync.pollAndSummarize run_id s0 script last_error final_message agent_id
      = Async.pollAndSummarize run_id s0 script last_error final_message agent_id := by
  rw [Sync.pollAndSummarize, Async.pollAndSummarize, pollLoop_sync_async_eq,
    afterLoop_sync_async_eq]

/-- C8 fails as stated for the whole entry points: before the shared
poll-and-summarize sequence the two scripts log different startup
lines (the async variant logs its start and tool initialization, the
sync variant logs the connection-id acquisition), so their console
output differs on every execution. -/
theorem C8_counterexample :
    Sync.mainEvents (some "conn") "bing" [] "a1" "t1" "mu1" "r1" "completed" [] none none
      ≠ Async.mainEvents "drm" "a1" "t1" "mu1" "r1" "completed" [] none none := by
  decide

end DeepResearch
